import Mathlib

/-!
Verification of the AI-call resilience layer of the backend:
the circuit breaker (`backend/app/circuit_breaker.py`), the token-bucket
rate limiter (`backend/app/rate_limiter.py`) and the fallback orchestrator
(`backend/app/services/llm.py`).

The Python code is shallowly embedded: wall-clock instants are integers
(seconds), token counts are rationals (Python floats hold fractional
tokens), provider calls are values of `Except` (the outcome the external
SDK call would produce), and raising `HTTPException` is returning an
error value carrying the status code and the detail payload.
-/

/-! ## Circuit breaker (`backend/app/circuit_breaker.py`) -/

/-- `CircuitState` from `circuit_breaker.py` (`closed`, `open`, `half_open`).
`open` is a Lean keyword, so the second constructor is named `opened`. -/
inductive CircuitState where
  | closed
  | opened
  | half_open
deriving DecidableEq, Repr

/-- The mutable fields and the construction-time configuration of
`CircuitBreaker.__init__`.  `last_failure_time` starts out `None`. -/
structure CircuitBreaker where
  failure_threshold : ℕ
  timeout : ℤ
  success_threshold : ℕ
  state : CircuitState
  failure_count : ℕ
  success_count : ℕ
  last_failure_time : Option ℤ
deriving DecidableEq, Repr

/-- `CircuitBreaker.__init__`: state `CLOSED`, both counters zero,
`last_failure_time = None`. -/
def CircuitBreaker.new (failure_threshold : ℕ) (timeout : ℤ)
    (success_threshold : ℕ) : CircuitBreaker :=
  { failure_threshold := failure_threshold
    timeout := timeout
    success_threshold := success_threshold
    state := .closed
    failure_count := 0
    success_count := 0
    last_failure_time := none }

/-- `CircuitBreaker._should_attempt_reset`: true when `last_failure_time`
is unset or at least `timeout` seconds have elapsed since it. -/
def CircuitBreaker.should_attempt_reset (b : CircuitBreaker) (now : ℤ) : Bool :=
  match b.last_failure_time with
  | none => true
  | some t => decide (now - t ≥ b.timeout)

/-- `CircuitBreaker._record_success`: reset `failure_count`; in
`HALF_OPEN`, bump `success_count` and close the circuit once it reaches
`success_threshold`. -/
def CircuitBreaker.record_success (b : CircuitBreaker) : CircuitBreaker :=
  let b1 := { b with failure_count := 0 }
  if b1.state = .half_open then
    let b2 := { b1 with success_count := b1.success_count + 1 }
    if b2.success_count ≥ b2.success_threshold then
      { b2 with state := .closed, success_count := 0 }
    else b2
  else b1

/-- `CircuitBreaker._record_failure`: bump `failure_count`, stamp
`last_failure_time`, clear `success_count`, and open the circuit only if
`failure_count` has reached `failure_threshold`. -/
def CircuitBreaker.record_failure (b : CircuitBreaker) (now : ℤ) : CircuitBreaker :=
  let b1 := { b with
    failure_count := b.failure_count + 1
    last_failure_time := some now
    success_count := 0 }
  if b1.failure_count ≥ b1.failure_threshold then
    { b1 with state := .opened }
  else b1

/-- Outcome of `CircuitBreaker.call`: either the circuit rejected the
request (the raised 503 advertises "Try again in `timeout` seconds" — the
payload here is that advertised number of seconds), or the wrapped
function ran and its result / exception is passed through. -/
inductive CallResult (ε α : Type) where
  | circuitOpen (retry_after : ℤ)
  | ok (a : α)
  | err (e : ε)
deriving DecidableEq, Repr

/-- The `try`/`except` tail of `CircuitBreaker.call`: run the wrapped
function, record the outcome, and pass the result or the exception on. -/
def CircuitBreaker.attempt (b : CircuitBreaker) (now : ℤ)
    (fn : Except ε α) : CircuitBreaker × CallResult ε α :=
  match fn with
  | .ok a => (b.record_success, .ok a)
  | .error e => (b.record_failure now, .err e)

/-- `CircuitBreaker.call`: if the circuit is `OPEN`, either move to
`HALF_OPEN` (reset timeout elapsed) or raise 503 carrying the configured
`timeout` without invoking the function; otherwise invoke the function
under the breaker's bookkeeping.  `fn` is the outcome the wrapped call
would produce; a `circuitOpen` result means it was never invoked. -/
def CircuitBreaker.call (b : CircuitBreaker) (now : ℤ)
    (fn : Except ε α) : CircuitBreaker × CallResult ε α :=
  if b.state = .opened then
    if b.should_attempt_reset now then
      CircuitBreaker.attempt { b with state := .half_open, success_count := 0 } now fn
    else
      (b, .circuitOpen b.timeout)
  else
    CircuitBreaker.attempt b now fn

/-- `CircuitBreaker.call_async`: textually the same gate and bookkeeping
as `call`, with the invocation awaited. -/
def CircuitBreaker.call_async (b : CircuitBreaker) (now : ℤ)
    (fn : Except ε α) : CircuitBreaker × CallResult ε α :=
  if b.state = .opened then
    if b.should_attempt_reset now then
      CircuitBreaker.attempt { b with state := .half_open, success_count := 0 } now fn
    else
      (b, .circuitOpen b.timeout)
  else
    CircuitBreaker.attempt b now fn

/-- The dictionary returned by `CircuitBreaker.get_status`. -/
structure BreakerStatus where
  state : CircuitState
  failure_count : ℕ
  success_count : ℕ
  last_failure_time : Option ℤ
  time_until_retry : ℤ
deriving DecidableEq, Repr

/-- `CircuitBreaker.get_status`: a pure read of the breaker's fields;
`time_until_retry` is `max 0 (timeout - elapsed)` when `OPEN`, else 0. -/
def CircuitBreaker.get_status (b : CircuitBreaker) (now : ℤ) : BreakerStatus :=
  { state := b.state
    failure_count := b.failure_count
    success_count := b.success_count
    last_failure_time := b.last_failure_time
    time_until_retry :=
      if b.state = .opened then
        max 0 (b.timeout - (match b.last_failure_time with
          | some t => now - t
          | none => 0))
      else 0 }

/-- One externally visible operation on a breaker: a `call`, a
`call_async` (each with the instant it happens and the outcome the
wrapped function would produce), or a `get_status` read. -/
inductive BreakerOp (ε α : Type) where
  | call (now : ℤ) (fn : Except ε α)
  | call_async (now : ℤ) (fn : Except ε α)
  | get_status (now : ℤ)

/-- The breaker state after one operation (`get_status` never mutates). -/
def CircuitBreaker.applyOp (b : CircuitBreaker) : BreakerOp ε α → CircuitBreaker
  | .call now fn => (b.call now fn).1
  | .call_async now fn => (b.call_async now fn).1
  | .get_status _ => b

/-- The breaker state after a sequence of operations. -/
def CircuitBreaker.runOps (b : CircuitBreaker) (ops : List (BreakerOp ε α)) :
    CircuitBreaker :=
  ops.foldl CircuitBreaker.applyOp b

/-! ## Rate limiter (`backend/app/rate_limiter.py`) -/

/-- `TokenBucket`: configured refill rate (tokens per minute), current
fractional token count, and the instant of the last refill. -/
structure TokenBucket where
  tokens_per_minute : ℕ
  tokens : ℚ
  last_refill : ℤ
deriving DecidableEq, Repr

/-- `TokenBucket.__init__(tokens_per_minute)` at creation instant `now`:
the bucket starts full and stamped with the creation time. -/
def TokenBucket.new (tokens_per_minute : ℕ) (now : ℤ) : TokenBucket :=
  { tokens_per_minute := tokens_per_minute
    tokens := tokens_per_minute
    last_refill := now }

/-- `TokenBucket.refill`: add `elapsed/60 * tokens_per_minute` tokens,
capped at `tokens_per_minute`, and stamp `last_refill = now`. -/
def TokenBucket.refill (b : TokenBucket) (now : ℤ) : TokenBucket :=
  let elapsed : ℚ := ((now - b.last_refill : ℤ) : ℚ)
  let tokens_to_add := (elapsed / 60) * (b.tokens_per_minute : ℚ)
  { b with
    tokens := min (b.tokens_per_minute : ℚ) (b.tokens + tokens_to_add)
    last_refill := now }

/-- `TokenBucket.consume(tokens)`: refill, then subtract the requested
amount if available (returning `true`), else leave the refilled count
unchanged and return `false`. -/
def TokenBucket.consume (b : TokenBucket) (cost : ℚ) (now : ℤ) :
    Bool × TokenBucket :=
  let b1 := b.refill now
  if b1.tokens ≥ cost then
    (true, { b1 with tokens := b1.tokens - cost })
  else
    (false, b1)

/-- `RateLimiter`: the `buckets` dict, embedded as an association list
from key to bucket. -/
structure RateLimiter where
  buckets : List (List Char × TokenBucket)
deriving DecidableEq, Repr

/-- `RateLimiter.__init__`: empty bucket map. -/
def RateLimiter.new : RateLimiter := { buckets := [] }

/-- Association-list lookup standing for `self.buckets[key]`. -/
def RateLimiter.findBucket (rl : RateLimiter) (key : List Char) :
    Option TokenBucket :=
  match rl.buckets.find? (fun kv => kv.1 = key) with
  | some kv => some kv.2
  | none => none

/-- Store a bucket back under its key (replace if present, append if
absent), standing for `self.buckets[key] = bucket`. -/
def RateLimiter.setBucket (rl : RateLimiter) (key : List Char)
    (b : TokenBucket) : RateLimiter :=
  if (rl.buckets.find? (fun kv => kv.1 = key)).isSome then
    { buckets := rl.buckets.map (fun kv => if kv.1 = key then (key, b) else kv) }
  else
    { buckets := rl.buckets ++ [(key, b)] }

/-- `RateLimiter.check_rate_limit(key, tokens_per_minute, tokens)`:
create the bucket lazily (full, stamped `now`), try to consume, and
either pass (`true`) or raise 429 (`false`); either way the refilled
bucket state is stored. -/
def RateLimiter.check_rate_limit (rl : RateLimiter) (key : List Char)
    (tokens_per_minute : ℕ) (cost : ℚ) (now : ℤ) : RateLimiter × Bool :=
  let b0 := match rl.findBucket key with
    | some b => b
    | none => TokenBucket.new tokens_per_minute now
  let r := b0.consume cost now
  (rl.setBucket key r.2, r.1)

/-! ## Text utilities for the orchestrator (`backend/app/services/llm.py`) -/

/-- The characters stripped by Python's `str.strip()`. -/
def isPyWS (c : Char) : Bool :=
  c == ' ' || c == '\t' || c == '\n' || c == '\x0b' || c == '\x0c' || c == '\r'

/-- ASCII lowercasing of one character (`str.lower()` on the ASCII
error messages the code matches against). -/
def toLowerChar (c : Char) : Char :=
  if 'A' ≤ c && c ≤ 'Z' then Char.ofNat (c.toNat + 32) else c

/-- `str.lower()` over the embedded text. -/
def lowerList (l : List Char) : List Char := l.map toLowerChar

/-- Python's substring test `needle in hay`. -/
def containsSub : List Char → List Char → Bool
  | needle, [] => needle.isEmpty
  | needle, c :: rest => needle.isPrefixOf (c :: rest) || containsSub needle rest

/-- The `retryable_patterns` list from `is_retryable_error`. -/
def retryable_patterns : List (List Char) :=
  ["429", "quota", "rate", "resource exhausted",
   "503", "service unavailable",
   "500", "internal server error",
   "timeout", "deadline exceeded"].map String.toList

/-- `is_retryable_error`: lowercase the error text and test whether any
of the transient-failure patterns occurs in it as a substring. -/
def is_retryable_error (msg : List Char) : Bool :=
  retryable_patterns.any (fun pat => containsSub pat (lowerList msg))

/-- JSON values, covering the fragment relevant to the strict extractor:
objects, arrays, strings, integer numbers, booleans and null. -/
inductive Json where
  | null
  | bool (b : Bool)
  | num (n : ℤ)
  | str (s : List Char)
  | arr (elts : List Json)
  | obj (members : List (List Char × Json))

/-- Whitespace skipped by the JSON grammar (`json.loads`). -/
def skipJsonWs (l : List Char) : List Char :=
  l.dropWhile (fun c => c == ' ' || c == '\t' || c == '\n' || c == '\r')

/-- Numeric value of a run of decimal digits. -/
def digitsToNat (ds : List Char) : ℕ :=
  ds.foldl (fun acc c => acc * 10 + (c.toNat - 48)) 0

/-- Parse the body of a JSON string after the opening quote, handling
the common escapes; returns the decoded characters and the rest. -/
def parseStringBody : ℕ → List Char → Option (List Char × List Char)
  | 0, _ => none
  | _, [] => none
  | fuel + 1, c :: rest =>
    if c = '"' then some ([], rest)
    else if c = '\\' then
      match rest with
      | [] => none
      | e :: rest2 =>
        let esc : Option Char :=
          if e = '"' then some '"'
          else if e = '\\' then some '\\'
          else if e = '/' then some '/'
          else if e = 'n' then some '\n'
          else if e = 't' then some '\t'
          else if e = 'r' then some '\r'
          else if e = 'b' then some (Char.ofNat 8)
          else if e = 'f' then some (Char.ofNat 12)
          else none
        match esc with
        | some ch =>
          match parseStringBody fuel rest2 with
          | some (s, r) => some (ch :: s, r)
          | none => none
        | none => none
    else
      match parseStringBody fuel rest with
      | some (s, r) => some (c :: s, r)
      | none => none

/-- Parse an optionally signed integer literal. -/
def parseIntLit (l : List Char) : Option (ℤ × List Char) :=
  match l with
  | '-' :: rest =>
    let p := rest.span (fun c => c.isDigit)
    if p.1 = [] then none else some (-(digitsToNat p.1 : ℤ), p.2)
  | _ =>
    let p := l.span (fun c => c.isDigit)
    if p.1 = [] then none else some ((digitsToNat p.1 : ℤ), p.2)

mutual

/-- Recursive-descent parse of one JSON value (fuel-indexed so that
every recursion is structural and evaluation is definitional). -/
def parseValue : ℕ → List Char → Option (Json × List Char)
  | 0, _ => none
  | fuel + 1, l =>
    match skipJsonWs l with
    | 'n' :: 'u' :: 'l' :: 'l' :: r => some (.null, r)
    | 't' :: 'r' :: 'u' :: 'e' :: r => some (.bool true, r)
    | 'f' :: 'a' :: 'l' :: 's' :: 'e' :: r => some (.bool false, r)
    | '"' :: r =>
      match parseStringBody (r.length + 1) r with
      | some (s, r2) => some (.str s, r2)
      | none => none
    | '{' :: r =>
      match skipJsonWs r with
      | '}' :: r2 => some (.obj [], r2)
      | r1 =>
        match parseMembers fuel r1 with
        | some (ms, r2) => some (.obj ms, r2)
        | none => none
    | '[' :: r =>
      match skipJsonWs r with
      | ']' :: r2 => some (.arr [], r2)
      | r1 =>
        match parseElems fuel r1 with
        | some (es, r2) => some (.arr es, r2)
        | none => none
    | l1 => parseIntLit l1 |>.map (fun p => (.num p.1, p.2))

/-- Parse `"key" : value (, "key" : value)* }` — the members of a
non-empty JSON object, consuming the closing brace. -/
def parseMembers : ℕ → List Char → Option (List (List Char × Json) × List Char)
  | 0, _ => none
  | fuel + 1, l =>
    match skipJsonWs l with
    | '"' :: r =>
      match parseStringBody (r.length + 1) r with
      | some (k, r2) =>
        match skipJsonWs r2 with
        | ':' :: r3 =>
          match parseValue fuel r3 with
          | some (v, r4) =>
            match skipJsonWs r4 with
            | '}' :: r5 => some ([(k, v)], r5)
            | ',' :: r5 =>
              match parseMembers fuel r5 with
              | some (ms, r6) => some ((k, v) :: ms, r6)
              | none => none
            | _ => none
          | none => none
        | _ => none
      | none => none
    | _ => none

/-- Parse `value (, value)* ]` — the elements of a non-empty JSON
array, consuming the closing bracket. -/
def parseElems : ℕ → List Char → Option (List Json × List Char)
  | 0, _ => none
  | fuel + 1, l =>
    match parseValue fuel l with
    | some (v, r) =>
      match skipJsonWs r with
      | ']' :: r2 => some ([v], r2)
      | ',' :: r2 =>
        match parseElems fuel r2 with
        | some (es, r3) => some (v :: es, r3)
        | none => none
      | _ => none
    | none => none

end

/-- `json.loads` on the embedded text: parse one value and require only
whitespace to remain ("Extra data" otherwise). -/
def jsonParse (l : List Char) : Option Json :=
  match parseValue (l.length + 1) l with
  | some (v, rest) => if skipJsonWs rest = [] then some v else none
  | none => none

/-- Escape a character for inclusion in a JSON string literal. -/
def escapeChar (c : Char) : List Char :=
  if c = '"' then ['\\', '"']
  else if c = '\\' then ['\\', '\\']
  else [c]

mutual

/-- Compact serialization of a JSON value (the "serialized as text"
side of the round-trip property). -/
def renderJson : Json → List Char
  | .null => "null".toList
  | .bool true => "true".toList
  | .bool false => "false".toList
  | .num n => (toString n).toList
  | .str s => '"' :: s.flatMap escapeChar ++ ['"']
  | .arr es => '[' :: renderElems es ++ [']']
  | .obj ms => '{' :: renderMembers ms ++ ['}']

/-- Serialize array elements, comma-separated. -/
def renderElems : List Json → List Char
  | [] => []
  | [v] => renderJson v
  | v :: rest => renderJson v ++ ',' :: renderElems rest

/-- Serialize object members, comma-separated. -/
def renderMembers : List (List Char × Json) → List Char
  | [] => []
  | [(k, v)] => '"' :: k.flatMap escapeChar ++ '"' :: ':' :: renderJson v
  | (k, v) :: rest =>
    '"' :: k.flatMap escapeChar ++ '"' :: ':' :: renderJson v ++ ',' :: renderMembers rest

end

/-- Python `str.strip()`. -/
def pyStrip (l : List Char) : List Char :=
  ((l.dropWhile isPyWS).reverse.dropWhile isPyWS).reverse

/-- Python `str.split("\n")`: split on every newline (never returns an
empty list of lines). -/
def splitNl : List Char → List (List Char)
  | [] => [[]]
  | c :: rest =>
    match splitNl rest with
    | [] => [[c]]
    | l :: ls => if c = '\n' then [] :: l :: ls else (c :: l) :: ls

/-- Python `"\n".join(lines)`. -/
def joinNl : List (List Char) → List Char
  | [] => []
  | [l] => l
  | l :: ls => l ++ '\n' :: joinNl ls

/-- The fence-stripping stanza of `parse_json_strict`: if the (already
stripped) text starts with a triple backtick, drop the first line, and
drop the last line too when it strips to a bare triple backtick. -/
def stripFences (l : List Char) : List Char :=
  if l.take 3 = "```".toList then
    let lines := (splitNl l).drop 1
    let lines2 :=
      match lines.getLast? with
      | some lastLine =>
        if pyStrip lastLine = "```".toList then lines.dropLast else lines
      | none => lines
    joinNl lines2
  else l

/-- Python `str.find(c)` as an optional index of the first occurrence. -/
def pyFindIdx (c : Char) : List Char → Option ℕ
  | [] => none
  | x :: rest => if x = c then some 0 else (pyFindIdx c rest).map (· + 1)

/-- Python `str.rfind(c)` as an optional index of the last occurrence. -/
def pyRFindIdx (c : Char) (l : List Char) : Option ℕ :=
  match pyFindIdx c l.reverse with
  | some i => some (l.length - 1 - i)
  | none => none

/-- The brace-extraction stanza of `parse_json_strict`: if a first `{`
and a later last `}` exist, keep only the text between them (inclusive);
otherwise leave the text unchanged. -/
def extractBraces (l : List Char) : List Char :=
  match pyFindIdx '{' l, pyRFindIdx '}' l with
  | some s, some e => if s < e + 1 then (l.drop s).take (e + 1 - s) else l
  | some _, none => l
  | none, _ => l

/-- The cleaning pipeline of `parse_json_strict`: strip whitespace,
strip a fenced code block, extract the brace-delimited substring. -/
def cleanText (text : List Char) : List Char :=
  extractBraces (stripFences (pyStrip text))

/-- `parse_json_strict`: clean the text and parse it as JSON; `none`
stands for the `json.JSONDecodeError` that `json.loads` raises. -/
def parse_json_strict (text : List Char) : Option Json :=
  jsonParse (cleanText text)

/-! ## Fallback orchestrator (`generate_text` in `backend/app/services/llm.py`) -/

/-- The provider key `"gemini"` used in the `clients` dict. -/
def geminiName : List Char := "gemini".toList

/-- The provider key `"anthropic"` used in the `clients` dict. -/
def anthropicName : List Char := "anthropic".toList

/-- The configuration `generate_text` reads from `settings`, together
with whether each client constructor would succeed (the `try`/`except`
around client construction). -/
structure LlmSettings where
  llm_primary : List Char
  llm_fallback : List Char
  force_fallback : Bool
  gemini_init_ok : Bool
  anthropic_api_key_set : Bool
  anthropic_init_ok : Bool

/-- The keys present in the `clients` dict after the two construction
stanzas: `"gemini"` when it is one of the two configured providers and
its client construction succeeds; `"anthropic"` when it is configured,
`ANTHROPIC_API_KEY` is set, and its client construction succeeds. -/
def clientsOf (s : LlmSettings) (p f : List Char) : List (List Char) :=
  (if (geminiName = p ∨ geminiName = f) ∧ s.gemini_init_ok
   then [geminiName] else []) ++
  (if (anthropicName = p ∨ anthropicName = f) ∧ s.anthropic_api_key_set ∧
      s.anthropic_init_ok
   then [anthropicName] else [])

/-- Detail of the HTTP 500 raised on a non-retryable primary failure:
`"AI generation failed (<provider>): <error>"`. -/
def failDetail (p e : List Char) : List Char :=
  "AI generation failed (".toList ++ p ++ "): ".toList ++ e

/-- Python `str(primary_error)` where `primary_error` may be `None`. -/
def strOfOptionErr : Option (List Char) → List Char
  | some e => e
  | none => "None".toList

/-- Detail of the HTTP 502 raised when both providers fail:
`"All AI providers failed. Primary (..): ... Fallback (..): .."`. -/
def aggDetail (p : List Char) (pe : Option (List Char)) (f e2 : List Char) :
    List Char :=
  "All AI providers failed. Primary (".toList ++ p ++ "): ".toList ++
    strOfOptionErr pe ++ ". Fallback (".toList ++ f ++ "): ".toList ++ e2

/-- Detail of the HTTP 503 raised when no client is available. -/
def noProvidersDetail : List Char := "No AI providers available".toList

/-- Message of the `ValueError` raised when `require_json` is set and
`parse_json_strict` fails: `"Invalid JSON response: <decoder message>"`. -/
def invalidJsonDetail (m : List Char) : List Char :=
  "Invalid JSON response: ".toList ++ m

/-- One provider attempt (the body of either `try` block of
`generate_text`): invoke the client — `invoke name` is the outcome the
`generate_text`/`generate_vision` call on that client would produce —
and, when `require_json` is set, validate the raw text through
`parse_json_strict`, turning a decode failure into the `ValueError`
whose message is `invalidJsonDetail (jsonErrMsg name)` (`jsonErrMsg`
supplies the `json.JSONDecodeError` text for that provider's output). -/
def attemptProvider (invoke : List Char → Except (List Char) (List Char))
    (jsonErrMsg : List Char → List Char) (require_json : Bool)
    (name : List Char) : Except (List Char) (List Char) :=
  match invoke name with
  | .error e => .error e
  | .ok text =>
    if require_json then
      match parse_json_strict text with
      | some _ => .ok text
      | none => .error (invalidJsonDetail (jsonErrMsg name))
    else .ok text

/-- What a run of `generate_text` produced: the returned text or the
raised `HTTPException` (status code and detail), plus whether each
provider's client was actually invoked. -/
structure GenOutcome where
  result : Except (ℕ × List Char) (List Char)
  primary_invoked : Bool
  fallback_invoked : Bool

/-- The tail of `generate_text` from the `if fallback_provider in
clients:` line: try the fallback client if present (aggregating both
errors into a 502 on failure), else raise the 503. -/
def fallbackStep (invoke : List Char → Except (List Char) (List Char))
    (jsonErrMsg : List Char → List Char) (require_json : Bool)
    (p f : List Char) (clients : List (List Char))
    (primary_error : Option (List Char)) (primary_invoked : Bool) :
    GenOutcome :=
  if f ∈ clients then
    match attemptProvider invoke jsonErrMsg require_json f with
    | .ok text =>
      { result := .ok text
        primary_invoked := primary_invoked
        fallback_invoked := true }
    | .error e2 =>
      { result := .error (502, aggDetail p primary_error f e2)
        primary_invoked := primary_invoked
        fallback_invoked := true }
  else
    { result := .error (503, noProvidersDetail)
      primary_invoked := primary_invoked
      fallback_invoked := false }

/-- `generate_text`: order the providers (swapped under
`FORCE_FALLBACK`), build the `clients` dict, try the primary through
the JSON check, classify a primary failure with `is_retryable_error`
(non-retryable → HTTP 500 naming the primary; retryable → fall
through), then try the fallback, else raise.  The function invokes the
provider clients directly: no `CircuitBreaker` appears anywhere in
`llm.py`. -/
def generate_text (s : LlmSettings)
    (invoke : List Char → Except (List Char) (List Char))
    (jsonErrMsg : List Char → List Char) (require_json : Bool) :
    GenOutcome :=
  let p := if s.force_fallback then s.llm_fallback else s.llm_primary
  let f := if s.force_fallback then s.llm_primary else s.llm_fallback
  let clients := clientsOf s p f
  if p ∈ clients then
    match attemptProvider invoke jsonErrMsg require_json p with
    | .ok text =>
      { result := .ok text
        primary_invoked := true
        fallback_invoked := false }
    | .error e =>
      if is_retryable_error e then
        fallbackStep invoke jsonErrMsg require_json p f clients (some e) true
      else
        { result := .error (500, failDetail p e)
          primary_invoked := true
          fallback_invoked := false }
  else
    fallbackStep invoke jsonErrMsg require_json p f clients none false

/-- A whole request through the code as written: `llm.generate_text`
neither imports nor references `circuit_breaker` (the module-level
`gemini_circuit_breaker` is used only by the separate `gemini` router),
so the breaker state is passed through untouched alongside the
orchestrator's outcome. -/
def generateWithBreaker (gcb : CircuitBreaker) (s : LlmSettings)
    (invoke : List Char → Except (List Char) (List Char))
    (jsonErrMsg : List Char → List Char) (require_json : Bool) :
    CircuitBreaker × GenOutcome :=
  (gcb, generate_text s invoke jsonErrMsg require_json)

/-! ## Circuit breaker theorems -/

/-- A sequence of consecutive failing calls through the breaker (each
entry is the instant of one call whose wrapped function fails). -/
def failCalls (b : CircuitBreaker) (ts : List ℤ) : CircuitBreaker :=
  ts.foldl (fun b t => (b.call t (Except.error () : Except Unit Unit)).1) b

lemma failCalls_opens : ∀ (ts : List ℤ) (b : CircuitBreaker),
    b.state = .closed → ts ≠ [] →
    b.failure_count + ts.length = b.failure_threshold →
    failCalls b ts =
      { b with state := .opened,
               failure_count := b.failure_threshold,
               success_count := 0,
               last_failure_time := ts.getLast? }
  | [], _, _, hne, _ => absurd rfl hne
  | [t], b, hb, _, hcount => by
    simp only [List.length_cons, List.length_nil, Nat.zero_add] at hcount
    have hge : b.failure_threshold ≤ b.failure_count + 1 := by omega
    simp [failCalls, CircuitBreaker.call, hb, CircuitBreaker.attempt,
          CircuitBreaker.record_failure, hge]
    omega
  | t :: t2 :: rest, b, hb, _, hcount => by
    simp only [List.length_cons] at hcount
    have hlt : ¬ (b.failure_threshold ≤ b.failure_count + 1) := by omega
    set b2 : CircuitBreaker :=
      { b with failure_count := b.failure_count + 1,
               success_count := 0,
               last_failure_time := some t } with hb2
    have hstep : (b.call t (Except.error () : Except Unit Unit)).1 = b2 := by
      simp [CircuitBreaker.call, hb, CircuitBreaker.attempt,
            CircuitBreaker.record_failure, hlt, hb2]
    have hrec := failCalls_opens (t2 :: rest) b2 (by simp [hb2, hb])
      (by simp) (by simp [hb2]; omega)
    have hunfold : failCalls b (t :: t2 :: rest) =
        failCalls ((b.call t (Except.error () : Except Unit Unit)).1)
          (t2 :: rest) := rfl
    rw [hunfold, hstep, hrec]
    simp [hb2, List.getLast?_cons_cons]

/-- C2: from a freshly constructed breaker (`Closed`, both counters 0)
with `failure_threshold ≥ 1` and `timeout > 0`, after exactly
`failure_threshold` consecutive failing calls the state is `Open`, and
a call made at the very instant of the last failure returns the
`CircuitOpen` rejection with the breaker unchanged — whatever the
wrapped function would have produced, i.e. it is not invoked. -/
theorem circuit_opens_after_threshold_failures
    (T S : ℕ) (tmo : ℤ) (ts : List ℤ)
    (hT : 1 ≤ T) (hto : 0 < tmo) (hlen : ts.length = T) :
    (failCalls (CircuitBreaker.new T tmo S) ts).state = .opened ∧
    (failCalls (CircuitBreaker.new T tmo S) ts).failure_count = T ∧
    ∀ fn : Except Unit Unit,
      (failCalls (CircuitBreaker.new T tmo S) ts).call (ts.getLastD 0) fn =
        (failCalls (CircuitBreaker.new T tmo S) ts, .circuitOpen tmo) := by
  have hne : ts ≠ [] := by
    intro h; rw [h] at hlen; simp at hlen; omega
  have hrun := failCalls_opens ts (CircuitBreaker.new T tmo S) rfl hne
    (by simp [CircuitBreaker.new, hlen])
  rw [hrun]
  refine ⟨rfl, by simp [CircuitBreaker.new], ?_⟩
  intro fn
  obtain ⟨tl, htl⟩ : ∃ tl, ts.getLast? = some tl := by
    cases h : ts.getLast? with
    | none => exact absurd (List.getLast?_eq_none_iff.mp h) hne
    | some tl => exact ⟨tl, rfl⟩
  have hlast : ts.getLastD 0 = tl := by
    simp [List.getLastD_eq_getLast?, htl]
  simp [CircuitBreaker.call, CircuitBreaker.should_attempt_reset,
        CircuitBreaker.new, htl, hlast]
  omega

/-- Witness for `circuit_opens_after_threshold_failures` at
`failure_threshold = 2`, `timeout = 60`, failing calls at instants 5
and 9. -/
theorem circuit_opens_after_threshold_failures_witness :
    1 ≤ 2 ∧ (0 : ℤ) < 60 ∧ [(5 : ℤ), 9].length = 2 ∧
    ((failCalls (CircuitBreaker.new 2 60 2) [5, 9]).state = .opened ∧
     (failCalls (CircuitBreaker.new 2 60 2) [5, 9]).failure_count = 2 ∧
     ∀ fn : Except Unit Unit,
       (failCalls (CircuitBreaker.new 2 60 2) [5, 9]).call
           ([(5 : ℤ), 9].getLastD 0) fn =
         (failCalls (CircuitBreaker.new 2 60 2) [5, 9], .circuitOpen 60)) :=
  ⟨by decide, by decide, by decide,
   circuit_opens_after_threshold_failures 2 2 60 [5, 9]
     (by decide) (by decide) (by decide)⟩

/-- C3 (code bug): breaker with `failure_threshold = 2`,
`success_threshold = 2`.  Two failures at instant 0 open the circuit; a
successful probe at instant 60 moves it to `HalfOpen` (resetting
`failure_count`).  A failing call in `HalfOpen` then leaves the state
`HalfOpen` — it does not reopen, because `_record_failure` only opens
when `failure_count` reaches the threshold — although `success_count`
is reset and `last_failure_time` is updated as the claim says. -/
theorem halfopen_failure_does_not_reopen :
    (((((CircuitBreaker.new 2 60 2).call 0
        (Except.error () : Except Unit Unit)).1.call 0
        (Except.error () : Except Unit Unit)).1.call 60
        (Except.ok () : Except Unit Unit)).1.state = .half_open) ∧
    ((((((CircuitBreaker.new 2 60 2).call 0
        (Except.error () : Except Unit Unit)).1.call 0
        (Except.error () : Except Unit Unit)).1.call 60
        (Except.ok () : Except Unit Unit)).1.call 60
        (Except.error () : Except Unit Unit)).1.state = .half_open) ∧
    ¬ ((((((CircuitBreaker.new 2 60 2).call 0
        (Except.error () : Except Unit Unit)).1.call 0
        (Except.error () : Except Unit Unit)).1.call 60
        (Except.ok () : Except Unit Unit)).1.call 60
        (Except.error () : Except Unit Unit)).1.state = .opened) ∧
    ((((((CircuitBreaker.new 2 60 2).call 0
        (Except.error () : Except Unit Unit)).1.call 0
        (Except.error () : Except Unit Unit)).1.call 60
        (Except.ok () : Except Unit Unit)).1.call 60
        (Except.error () : Except Unit Unit)).1.success_count = 0) ∧
    ((((((CircuitBreaker.new 2 60 2).call 0
        (Except.error () : Except Unit Unit)).1.call 0
        (Except.error () : Except Unit Unit)).1.call 60
        (Except.ok () : Except Unit Unit)).1.call 60
        (Except.error () : Except Unit Unit)).1.last_failure_time = some 60) := by
  decide

/-- C9 counterexample: a breaker opened by five failures at instant 0
(`timeout = 60`), called again at instant 30, rejects with a payload of
60 — the full configured `timeout` interpolated into the 503 detail —
whereas the remaining cooldown (`timeout` minus elapsed) is 30. -/
theorem circuitOpen_payload_not_remaining :
    (failCalls (CircuitBreaker.new 5 60 2) [0, 0, 0, 0, 0]).state = .opened ∧
    (failCalls (CircuitBreaker.new 5 60 2) [0, 0, 0, 0, 0]).last_failure_time
      = some 0 ∧
    ((failCalls (CircuitBreaker.new 5 60 2) [0, 0, 0, 0, 0]).call 30
        (Except.ok () : Except Unit Unit)).2 = .circuitOpen 60 ∧
    (60 : ℤ) ≠ 60 - ((30 : ℤ) - 0) := by
  decide

/-- C9 (amended): a call on an `Open` breaker before `timeout` has
elapsed since `last_failure_time` rejects without invoking the wrapped
function, and the rejection carries the configured `timeout` (the
constant advertised in the 503 detail), not the remaining cooldown. -/
theorem circuitOpen_rejects_with_configured_timeout
    (b : CircuitBreaker) (now tf : ℤ)
    (hs : b.state = .opened) (hlf : b.last_failure_time = some tf)
    (hlt : now - tf < b.timeout) :
    ∀ fn : Except Unit Unit, b.call now fn = (b, .circuitOpen b.timeout) := by
  intro fn
  simp [CircuitBreaker.call, CircuitBreaker.should_attempt_reset, hs, hlf]
  omega

/-- Witness for `circuitOpen_rejects_with_configured_timeout` on the
breaker opened by five failures at instant 0, probed at instant 30. -/
theorem circuitOpen_rejects_with_configured_timeout_witness :
    (failCalls (CircuitBreaker.new 5 60 2) [0, 0, 0, 0, 0]).state = .opened ∧
    (failCalls (CircuitBreaker.new 5 60 2) [0, 0, 0, 0, 0]).last_failure_time
      = some 0 ∧
    (30 : ℤ) - 0 < (failCalls (CircuitBreaker.new 5 60 2) [0, 0, 0, 0, 0]).timeout ∧
    ∀ fn : Except Unit Unit,
      (failCalls (CircuitBreaker.new 5 60 2) [0, 0, 0, 0, 0]).call 30 fn =
        (failCalls (CircuitBreaker.new 5 60 2) [0, 0, 0, 0, 0],
         .circuitOpen (failCalls (CircuitBreaker.new 5 60 2) [0, 0, 0, 0, 0]).timeout) :=
  ⟨by decide, by decide, by decide,
   circuitOpen_rejects_with_configured_timeout _ 30 0
     (by decide) (by decide) (by decide)⟩

/-- The C10 invariant: a positive `success_count` only ever occurs in
`HalfOpen`. -/
def breakerInv (b : CircuitBreaker) : Prop :=
  0 < b.success_count → b.state = .half_open

lemma attempt_preserves_inv (b : CircuitBreaker) (now : ℤ)
    (fn : Except ε α) (h : breakerInv b) :
    breakerInv (CircuitBreaker.attempt b now fn).1 := by
  cases fn with
  | error e =>
    simp [CircuitBreaker.attempt, CircuitBreaker.record_failure, breakerInv]
    split <;> simp
  | ok a =>
    simp [CircuitBreaker.attempt, CircuitBreaker.record_success]
    by_cases hs : b.state = .half_open
    · simp [hs]
      split
      · simp [breakerInv]
      · simp [breakerInv, hs]
    · simp [hs]
      intro h0
      exact absurd (h h0) hs

lemma call_preserves_inv (b : CircuitBreaker) (now : ℤ)
    (fn : Except ε α) (h : breakerInv b) :
    breakerInv (b.call now fn).1 := by
  by_cases hs : b.state = .opened
  · by_cases hr : b.should_attempt_reset now = true
    · have : (b.call now fn).1 =
          (CircuitBreaker.attempt
            { b with state := .half_open, success_count := 0 } now fn).1 := by
        simp [CircuitBreaker.call, hs, hr]
      rw [this]
      exact attempt_preserves_inv _ now fn (by intro h0; simp at h0)
    · have : (b.call now fn).1 = b := by
        simp [CircuitBreaker.call, hs, hr]
      rw [this]; exact h
  · have : (b.call now fn).1 = (CircuitBreaker.attempt b now fn).1 := by
      simp [CircuitBreaker.call, hs]
    rw [this]
    exact attempt_preserves_inv b now fn h

lemma applyOp_preserves_inv (b : CircuitBreaker) (op : BreakerOp ε α)
    (h : breakerInv b) : breakerInv (b.applyOp op) := by
  cases op with
  | call now fn => exact call_preserves_inv b now fn h
  | call_async now fn =>
    have : CircuitBreaker.applyOp b (BreakerOp.call_async now fn) =
        (b.call now fn).1 := by
      simp [CircuitBreaker.applyOp, CircuitBreaker.call_async, CircuitBreaker.call]
    rw [this]
    exact call_preserves_inv b now fn h
  | get_status _ => exact h

lemma runOps_preserves_inv : ∀ (ops : List (BreakerOp ε α)) (b : CircuitBreaker),
    breakerInv b → breakerInv (b.runOps ops)
  | [], _, h => h
  | op :: ops, b, h =>
    runOps_preserves_inv ops (b.applyOp op) (applyOp_preserves_inv b op h)

/-- C10: starting from a freshly constructed breaker, any sequence of
`call`, `call_async` and `get_status` operations leaves the breaker in
a state where a positive `success_count` implies the state is
`HalfOpen`; equivalently `success_count = 0` in `Closed` and `Open`. -/
theorem success_count_only_in_halfopen (ε α : Type) (ft st : ℕ) (tmo : ℤ)
    (ops : List (BreakerOp ε α))
    (hpos : 0 < ((CircuitBreaker.new ft tmo st).runOps ops).success_count) :
    ((CircuitBreaker.new ft tmo st).runOps ops).state = .half_open :=
  runOps_preserves_inv ops (CircuitBreaker.new ft tmo st)
    (by intro h0; simp [CircuitBreaker.new] at h0) hpos

/-- Witness for `success_count_only_in_halfopen`: one failure at
instant 0 opens a threshold-1 breaker; a successful probe at instant 60
moves it to `HalfOpen` with `success_count = 1`. -/
theorem success_count_only_in_halfopen_witness :
    0 < ((CircuitBreaker.new 1 60 2).runOps
      [BreakerOp.call 0 (Except.error ()), BreakerOp.call 60 (Except.ok ())]
      : CircuitBreaker).success_count ∧
    ((CircuitBreaker.new 1 60 2).runOps
      [BreakerOp.call 0 (Except.error ()), BreakerOp.call 60 (Except.ok ())]
      : CircuitBreaker).state = .half_open :=
  ⟨by decide,
   success_count_only_in_halfopen Unit Unit 1 2 60
     [BreakerOp.call 0 (Except.error ()), BreakerOp.call 60 (Except.ok ())]
     (by decide)⟩

/-! ## Rate limiter theorems -/

lemma consume_reject_no_tokens (b : TokenBucket) (c : ℚ) (now : ℤ)
    (h : (b.consume c now).1 = false) :
    (b.consume c now).2.tokens = (b.refill now).tokens := by
  by_cases hge : (b.refill now).tokens ≥ c
  · simp [TokenBucket.consume, hge] at h
  · simp [TokenBucket.consume, hge]

/-- C6: a fresh limiter at 2 tokens/minute, three cost-1 checks on the
same fresh key at one instant: admit, admit, reject; and the rejected
third call leaves the limiter exactly as the second left it (the
refill at zero elapsed time adds nothing and no tokens are consumed on
rejection — consumption is all-or-nothing, as the last conjunct states
for every bucket). -/
theorem rate_limiter_two_per_minute_scenario (t : ℤ) (key : List Char) :
    (RateLimiter.new.check_rate_limit key 2 1 t).2 = true ∧
    ((RateLimiter.new.check_rate_limit key 2 1 t).1.check_rate_limit
        key 2 1 t).2 = true ∧
    (((RateLimiter.new.check_rate_limit key 2 1 t).1.check_rate_limit
        key 2 1 t).1.check_rate_limit key 2 1 t).2 = false ∧
    (((RateLimiter.new.check_rate_limit key 2 1 t).1.check_rate_limit
        key 2 1 t).1.check_rate_limit key 2 1 t).1 =
      ((RateLimiter.new.check_rate_limit key 2 1 t).1.check_rate_limit
        key 2 1 t).1 ∧
    ∀ (b : TokenBucket) (c : ℚ) (now : ℤ),
      (b.consume c now).1 = false →
        (b.consume c now).2.tokens = (b.refill now).tokens := by
  have hb1 : RateLimiter.new.check_rate_limit key 2 1 t =
      ({ buckets := [(key, { tokens_per_minute := 2, tokens := 1,
                             last_refill := t })] }, true) := by
    norm_num [RateLimiter.check_rate_limit, RateLimiter.new,
      RateLimiter.findBucket, RateLimiter.setBucket, TokenBucket.new,
      TokenBucket.consume, TokenBucket.refill]
  have hb2 : (RateLimiter.mk [(key, { tokens_per_minute := 2, tokens := 1,
                                       last_refill := t })]).check_rate_limit
      key 2 1 t =
      ({ buckets := [(key, { tokens_per_minute := 2, tokens := 0,
                             last_refill := t })] }, true) := by
    norm_num [RateLimiter.check_rate_limit, RateLimiter.findBucket,
      RateLimiter.setBucket, TokenBucket.consume, TokenBucket.refill]
  have hb3 : (RateLimiter.mk [(key, { tokens_per_minute := 2, tokens := 0,
                                       last_refill := t })]).check_rate_limit
      key 2 1 t =
      ({ buckets := [(key, { tokens_per_minute := 2, tokens := 0,
                             last_refill := t })] }, false) := by
    norm_num [RateLimiter.check_rate_limit, RateLimiter.findBucket,
      RateLimiter.setBucket, TokenBucket.consume, TokenBucket.refill]
  refine ⟨?_, ?_, ?_, ?_, consume_reject_no_tokens⟩
  · rw [hb1]
  · rw [hb1]; rw [hb2]
  · rw [hb1]; rw [hb2]; rw [hb3]
  · rw [hb1]; rw [hb2]; rw [hb3]

/-- A sequence of `consume` operations on one bucket, each with its
instant and its cost (what a series of `check_rate_limit` calls on the
bucket's key performs). -/
def consumeOps (b : TokenBucket) (ops : List (ℤ × ℚ)) : TokenBucket :=
  ops.foldl (fun b op => (b.consume op.2 op.1).2) b

/-- The bucket's documented range invariant. -/
def bucketInv (b : TokenBucket) : Prop :=
  0 ≤ b.tokens ∧ b.tokens ≤ (b.tokens_per_minute : ℚ)

lemma refill_addend_nonneg (b : TokenBucket) (now : ℤ)
    (hle : b.last_refill ≤ now) :
    0 ≤ (((now - b.last_refill : ℤ) : ℚ) / 60) * (b.tokens_per_minute : ℚ) := by
  apply mul_nonneg
  · apply div_nonneg _ (by norm_num)
    exact_mod_cast Int.sub_nonneg.mpr hle
  · exact Nat.cast_nonneg _

lemma refill_inv (b : TokenBucket) (now : ℤ) (h : bucketInv b)
    (hle : b.last_refill ≤ now) :
    bucketInv (b.refill now) ∧ b.tokens ≤ (b.refill now).tokens := by
  have hadd := refill_addend_nonneg b now hle
  constructor
  · constructor
    · exact le_min (Nat.cast_nonneg _) (add_nonneg h.1 hadd)
    · exact min_le_left _ _
  · exact le_min h.2 (le_add_of_nonneg_right hadd)

lemma consume_inv (b : TokenBucket) (c : ℚ) (now : ℤ) (h : bucketInv b)
    (hle : b.last_refill ≤ now) (hc : 0 ≤ c) :
    bucketInv (b.consume c now).2 ∧ (b.consume c now).2.last_refill = now := by
  have hr := (refill_inv b now h hle).1
  have hlr : (b.refill now).last_refill = now := rfl
  by_cases hge : (b.refill now).tokens ≥ c
  · refine ⟨⟨?_, ?_⟩, ?_⟩
    · simp [TokenBucket.consume, hge]
    · simp [TokenBucket.consume, hge]
      have h2 := hr.2
      linarith
    · simp [TokenBucket.consume, hge, hlr]
  · refine ⟨⟨?_, ?_⟩, ?_⟩
    · simp [TokenBucket.consume, hge]
      exact hr.1
    · simp [TokenBucket.consume, hge]
      exact hr.2
    · simp [TokenBucket.consume, hge, hlr]

lemma chain_le_take (l : List ℤ) : ∀ (a : ℤ) (n : ℕ),
    List.Chain (· ≤ ·) a l → List.Chain (· ≤ ·) a (l.take n) := by
  induction l with
  | nil => intro a n _; simp [List.Chain.nil]
  | cons b l ih =>
    intro a n hc
    cases n with
    | zero => simp [List.Chain.nil]
    | succ n =>
      rw [List.chain_cons] at hc
      exact List.take_succ_cons ▸ List.chain_cons.mpr ⟨hc.1, ih b n hc.2⟩

lemma consumeOps_inv : ∀ (ops : List (ℤ × ℚ)) (b : TokenBucket),
    bucketInv b → List.Chain (· ≤ ·) b.last_refill (ops.map Prod.fst) →
    (∀ op ∈ ops, (1 : ℚ) ≤ op.2) → bucketInv (consumeOps b ops)
  | [], _, h, _, _ => h
  | (tm, c) :: ops, b, h, hchain, hcost => by
    rw [List.map_cons, List.chain_cons] at hchain
    have hc1 : (1 : ℚ) ≤ c := hcost (tm, c) (by simp)
    have hstep := consume_inv b c tm h hchain.1 (by linarith)
    have hnext : consumeOps b ((tm, c) :: ops) =
        consumeOps (b.consume c tm).2 ops := rfl
    rw [hnext]
    exact consumeOps_inv ops (b.consume c tm).2 hstep.1
      (by rw [hstep.2]; exact hchain.2)
      (fun op hop => hcost op (List.mem_cons_of_mem _ hop))

/-- C7: for every bucket within its documented range and every sequence
of consumptions at non-decreasing instants with costs ≥ 1, (a) after
every prefix of the sequence the token count stays within
`[0, capacity]`; (b) a refill at or after `last_refill` never decreases
the token count (for any in-range bucket); (c) a successful admission
decreases the refilled token count by exactly the requested cost. -/
theorem token_bucket_invariant (b0 : TokenBucket) (ops : List (ℤ × ℚ))
    (hinv : 0 ≤ b0.tokens ∧ b0.tokens ≤ (b0.tokens_per_minute : ℚ))
    (hchain : List.Chain (· ≤ ·) b0.last_refill (ops.map Prod.fst))
    (hcost : ∀ op ∈ ops, (1 : ℚ) ≤ op.2) :
    (∀ n : ℕ, 0 ≤ (consumeOps b0 (ops.take n)).tokens ∧
      (consumeOps b0 (ops.take n)).tokens ≤
        ((consumeOps b0 (ops.take n)).tokens_per_minute : ℚ)) ∧
    (∀ (b : TokenBucket) (now : ℤ),
      0 ≤ b.tokens → b.tokens ≤ (b.tokens_per_minute : ℚ) →
      b.last_refill ≤ now → b.tokens ≤ (b.refill now).tokens) ∧
    (∀ (b : TokenBucket) (c : ℚ) (now : ℤ), (b.consume c now).1 = true →
      (b.consume c now).2.tokens = (b.refill now).tokens - c) := by
  refine ⟨?_, ?_, ?_⟩
  · intro n
    have := consumeOps_inv (ops.take n) b0 hinv
      (by rw [List.map_take]; exact chain_le_take _ _ n hchain)
      (fun op hop => hcost op (List.take_subset n ops hop))
    exact this
  · intro b now h1 h2 hle
    exact (refill_inv b now ⟨h1, h2⟩ hle).2
  · intro b c now hok
    by_cases hge : (b.refill now).tokens ≥ c
    · simp [TokenBucket.consume, hge]
    · simp [TokenBucket.consume, hge] at hok

/-- Witness for `token_bucket_invariant`: an empty capacity-2 bucket
and one cost-1 consumption at the bucket's own timestamp. -/
theorem token_bucket_invariant_witness :
    (0 ≤ (TokenBucket.mk 2 0 0).tokens ∧
      (TokenBucket.mk 2 0 0).tokens ≤
        ((TokenBucket.mk 2 0 0).tokens_per_minute : ℚ)) ∧
    List.Chain (· ≤ ·) (TokenBucket.mk 2 0 0).last_refill
      ([((0 : ℤ), (1 : ℚ))].map Prod.fst) ∧
    (∀ op ∈ [((0 : ℤ), (1 : ℚ))], (1 : ℚ) ≤ op.2) ∧
    ((∀ n : ℕ,
        0 ≤ (consumeOps (TokenBucket.mk 2 0 0)
            ([((0 : ℤ), (1 : ℚ))].take n)).tokens ∧
        (consumeOps (TokenBucket.mk 2 0 0)
            ([((0 : ℤ), (1 : ℚ))].take n)).tokens ≤
          ((consumeOps (TokenBucket.mk 2 0 0)
            ([((0 : ℤ), (1 : ℚ))].take n)).tokens_per_minute : ℚ)) ∧
      (∀ (b : TokenBucket) (now : ℤ),
        0 ≤ b.tokens → b.tokens ≤ (b.tokens_per_minute : ℚ) →
        b.last_refill ≤ now → b.tokens ≤ (b.refill now).tokens) ∧
      (∀ (b : TokenBucket) (c : ℚ) (now : ℤ), (b.consume c now).1 = true →
        (b.consume c now).2.tokens = (b.refill now).tokens - c)) :=
  ⟨⟨le_refl 0, Nat.cast_nonneg 2⟩,
   by simp,
   by simp,
   token_bucket_invariant (TokenBucket.mk 2 0 0) [((0 : ℤ), (1 : ℚ))]
     ⟨le_refl 0, Nat.cast_nonneg 2⟩ (by simp) (by simp)⟩

/-! ## Fallback orchestrator theorems -/

lemma isPrefixOf_append_self : ∀ (p rest : List Char),
    p.isPrefixOf (p ++ rest) = true
  | [], rest => by simp [List.isPrefixOf]
  | a :: p, rest => by
    simp [List.isPrefixOf, isPrefixOf_append_self p rest]

lemma containsSub_append_mid : ∀ (pre p post : List Char),
    containsSub p (pre ++ (p ++ post)) = true
  | [], p, post => by
    cases p with
    | nil => cases post <;> simp [containsSub, List.isPrefixOf]
    | cons a as =>
      simp [containsSub, List.isPrefixOf, isPrefixOf_append_self as post]
  | c :: pre, p, post => by
    simp [containsSub, containsSub_append_mid pre p post]

/-- C4: when the primary provider's client exists and its invocation
fails with a non-retryable error, `generate_text` raises the HTTP 500
whose detail names the primary provider, and the fallback client is
never invoked. -/
theorem fatal_primary_error_no_fallback (s : LlmSettings)
    (invoke : List Char → Except (List Char) (List Char))
    (jsonErrMsg : List Char → List Char) (require_json : Bool)
    (e : List Char)
    (hmem : (if s.force_fallback then s.llm_fallback else s.llm_primary) ∈
      clientsOf s (if s.force_fallback then s.llm_fallback else s.llm_primary)
        (if s.force_fallback then s.llm_primary else s.llm_fallback))
    (herr : invoke (if s.force_fallback then s.llm_fallback else s.llm_primary)
      = .error e)
    (hfatal : is_retryable_error e = false) :
    generate_text s invoke jsonErrMsg require_json =
      { result := .error (500, failDetail
          (if s.force_fallback then s.llm_fallback else s.llm_primary) e)
        primary_invoked := true
        fallback_invoked := false } ∧
    containsSub (if s.force_fallback then s.llm_fallback else s.llm_primary)
      (failDetail (if s.force_fallback then s.llm_fallback else s.llm_primary) e)
      = true := by
  constructor
  · simp [generate_text, hmem, attemptProvider, herr, hfatal]
  · have hmid := containsSub_append_mid "AI generation failed (".toList
      (if s.force_fallback then s.llm_fallback else s.llm_primary)
      ("): ".toList ++ e)
    simpa [failDetail, List.append_assoc] using hmid

/-- Witness for `fatal_primary_error_no_fallback`: primary `gemini`
fails with `"invalid api key"` (no transient pattern matches), fallback
`anthropic` configured and healthy. -/
theorem fatal_primary_error_no_fallback_witness :
    (generate_text
        (LlmSettings.mk geminiName anthropicName false true true true)
        (fun n => if n = geminiName
          then Except.error "invalid api key".toList
          else Except.ok "hello".toList)
        (fun _ => []) false =
      { result := Except.error (500,
          failDetail geminiName "invalid api key".toList)
        primary_invoked := true
        fallback_invoked := false }) ∧
    containsSub geminiName (failDetail geminiName "invalid api key".toList)
      = true := by
  have happ := fatal_primary_error_no_fallback
    (LlmSettings.mk geminiName anthropicName false true true true)
    (fun n => if n = geminiName
      then Except.error "invalid api key".toList
      else Except.ok "hello".toList)
    (fun _ => []) false "invalid api key".toList
    (by decide) (by rfl) (by decide)
  simpa using happ

/-- A configuration with `gemini` primary and `anthropic` fallback,
both clients constructible. -/
def twoProviderSettings : LlmSettings :=
  LlmSettings.mk geminiName anthropicName false true true true

/-- Provider behaviour for the malformed-JSON scenario: the primary
returns non-JSON prose, the fallback would return a JSON object. -/
def malformedInvoke : List Char → Except (List Char) (List Char) :=
  fun n => if n = geminiName
    then Except.ok "not json at all".toList
    else Except.ok ('{' :: '}' :: [])

/-- The `json.JSONDecodeError` message `json.loads` produces on the
primary's output `"not json at all"`. -/
def expectingValueMsg : List Char :=
  "Expecting value: line 1 column 1 (char 0)".toList

/-- C5 counterexample: with `require_json` set, the primary returning
unparseable text makes `generate_text` raise HTTP 500 naming the
primary and never invoke the fallback — the synthesized error
`"Invalid JSON response: ..."` matches none of the retryable patterns —
even though the fallback client exists. -/
theorem malformed_json_aborts_without_fallback :
    (generate_text twoProviderSettings malformedInvoke
        (fun _ => expectingValueMsg) true).fallback_invoked = false ∧
    (generate_text twoProviderSettings malformedInvoke
        (fun _ => expectingValueMsg) true).result =
      .error (500, failDetail geminiName (invalidJsonDetail expectingValueMsg)) ∧
    is_retryable_error (invalidJsonDetail expectingValueMsg) = false ∧
    anthropicName ∈ clientsOf twoProviderSettings geminiName anthropicName :=
  ⟨rfl, rfl, by decide, by decide⟩

/-- C5 (amended): when `require_json` is set and the primary's output
fails strict JSON extraction, the malformed output is not returned to
the caller; but because the synthesized `ValueError` message matches no
retryable pattern, the failure is classified as fatal: `generate_text`
raises HTTP 500 naming the primary provider and the fallback is not
attempted. -/
theorem malformed_json_fatal_classification (s : LlmSettings)
    (invoke : List Char → Except (List Char) (List Char))
    (jsonErrMsg : List Char → List Char) (text : List Char)
    (hmem : (if s.force_fallback then s.llm_fallback else s.llm_primary) ∈
      clientsOf s (if s.force_fallback then s.llm_fallback else s.llm_primary)
        (if s.force_fallback then s.llm_primary else s.llm_fallback))
    (hok : invoke (if s.force_fallback then s.llm_fallback else s.llm_primary)
      = .ok text)
    (hbad : parse_json_strict text = none)
    (hfatal : is_retryable_error (invalidJsonDetail
      (jsonErrMsg (if s.force_fallback then s.llm_fallback else s.llm_primary)))
      = false) :
    generate_text s invoke jsonErrMsg true =
      { result := .error (500, failDetail
          (if s.force_fallback then s.llm_fallback else s.llm_primary)
          (invalidJsonDetail (jsonErrMsg
            (if s.force_fallback then s.llm_fallback else s.llm_primary))))
        primary_invoked := true
        fallback_invoked := false } ∧
    (generate_text s invoke jsonErrMsg true).result ≠ .ok text := by
  have hmain : generate_text s invoke jsonErrMsg true =
      { result := .error (500, failDetail
          (if s.force_fallback then s.llm_fallback else s.llm_primary)
          (invalidJsonDetail (jsonErrMsg
            (if s.force_fallback then s.llm_fallback else s.llm_primary))))
        primary_invoked := true
        fallback_invoked := false } := by
    simp [generate_text, hmem, attemptProvider, hok, hbad, hfatal]
  exact ⟨hmain, by rw [hmain]; simp⟩

/-- Witness for `malformed_json_fatal_classification` on the
malformed-JSON scenario. -/
theorem malformed_json_fatal_classification_witness :
    (generate_text twoProviderSettings malformedInvoke
        (fun _ => expectingValueMsg) true =
      { result := Except.error (500, failDetail geminiName
          (invalidJsonDetail expectingValueMsg))
        primary_invoked := true
        fallback_invoked := false }) ∧
    (generate_text twoProviderSettings malformedInvoke
        (fun _ => expectingValueMsg) true).result ≠
      .ok "not json at all".toList := by
  have happ := malformed_json_fatal_classification twoProviderSettings
    malformedInvoke (fun _ => expectingValueMsg) "not json at all".toList
    (by decide) (by rfl) (by rfl) (by decide)
  simpa [twoProviderSettings] using happ

/-- Provider behaviour for the retryable-failover scenario: the primary
fails with a quota error, the fallback succeeds. -/
def retryableInvoke : List Char → Except (List Char) (List Char) :=
  fun n => if n = geminiName
    then Except.error "429 rate limit exceeded".toList
    else Except.ok "hello from fallback".toList

/-- C1 counterexample: in the retryable-primary-failure /
fallback-success scenario, `generate_text` goes nowhere near a circuit
breaker — `llm.py` defines and uses none — so the (only) breaker is
bit-for-bit unchanged: the primary's breaker has recorded zero
failures, not one, and the returned value is the bare fallback text
with no provider attribution. -/
theorem generate_leaves_breakers_untouched :
    (generateWithBreaker (CircuitBreaker.new 5 60 2) twoProviderSettings
        retryableInvoke (fun _ => []) false).1 = CircuitBreaker.new 5 60 2 ∧
    (generateWithBreaker (CircuitBreaker.new 5 60 2) twoProviderSettings
        retryableInvoke (fun _ => []) false).1.failure_count = 0 ∧
    ¬ ((generateWithBreaker (CircuitBreaker.new 5 60 2) twoProviderSettings
        retryableInvoke (fun _ => []) false).1.failure_count = 1) ∧
    (generateWithBreaker (CircuitBreaker.new 5 60 2) twoProviderSettings
        retryableInvoke (fun _ => []) false).2.result =
      .ok "hello from fallback".toList ∧
    (generateWithBreaker (CircuitBreaker.new 5 60 2) twoProviderSettings
        retryableInvoke (fun _ => []) false).2.fallback_invoked = true :=
  ⟨rfl, rfl, by decide, rfl, rfl⟩

/-- C1 (amended): a retryable primary failure followed by a fallback
success makes `generate_text` return the fallback's raw text (both
providers having been invoked), and — the providers being called
directly, not through any circuit breaker — the breaker state is
unchanged: nothing is recorded on either side, and the returned value
carries no provider attribution. -/
theorem retryable_failover_returns_fallback_text (gcb : CircuitBreaker)
    (s : LlmSettings) (invoke : List Char → Except (List Char) (List Char))
    (jsonErrMsg : List Char → List Char) (e text : List Char)
    (hmemp : (if s.force_fallback then s.llm_fallback else s.llm_primary) ∈
      clientsOf s (if s.force_fallback then s.llm_fallback else s.llm_primary)
        (if s.force_fallback then s.llm_primary else s.llm_fallback))
    (hmemf : (if s.force_fallback then s.llm_primary else s.llm_fallback) ∈
      clientsOf s (if s.force_fallback then s.llm_fallback else s.llm_primary)
        (if s.force_fallback then s.llm_primary else s.llm_fallback))
    (herr : invoke (if s.force_fallback then s.llm_fallback else s.llm_primary)
      = .error e)
    (hretry : is_retryable_error e = true)
    (hok : invoke (if s.force_fallback then s.llm_primary else s.llm_fallback)
      = .ok text) :
    generateWithBreaker gcb s invoke jsonErrMsg false =
      (gcb, { result := .ok text
              primary_invoked := true
              fallback_invoked := true }) := by
  simp [generateWithBreaker, generate_text, hmemp, attemptProvider, herr,
        hretry, fallbackStep, hmemf, hok]

/-- Witness for `retryable_failover_returns_fallback_text` on the
retryable-failover scenario. -/
theorem retryable_failover_returns_fallback_text_witness :
    generateWithBreaker (CircuitBreaker.new 5 60 2) twoProviderSettings
        retryableInvoke (fun _ => []) false =
      (CircuitBreaker.new 5 60 2,
       { result := Except.ok "hello from fallback".toList
         primary_invoked := true
         fallback_invoked := true }) := by
  have happ := retryable_failover_returns_fallback_text
    (CircuitBreaker.new 5 60 2) twoProviderSettings retryableInvoke
    (fun _ => []) "429 rate limit exceeded".toList
    "hello from fallback".toList
    (by decide) (by decide) (by rfl) (by decide) (by rfl)
  simpa [twoProviderSettings] using happ

/-! ## Strict JSON extraction theorems -/

lemma dropWhile_append_cons (p : Char → Bool) (l1 : List Char) (c : Char)
    (l2 : List Char) (hc : p c = false) :
    List.dropWhile p (l1 ++ c :: l2) = List.dropWhile p l1 ++ c :: l2 := by
  induction l1 with
  | nil => simp [List.dropWhile, hc]
  | cons a l1 ih =>
    cases hpa : p a <;> simp [List.dropWhile, hpa, ih]

lemma pyStrip_wrap (p1 mid p2 : List Char) :
    pyStrip (p1 ++ (('{' :: mid) ++ ['}']) ++ p2) =
      (p1.dropWhile isPyWS ++ (('{' :: mid) ++ ['}'])) ++
        (p2.reverse.dropWhile isPyWS).reverse := by
  have hob : isPyWS '{' = false := by decide
  have hcb : isPyWS '}' = false := by decide
  unfold pyStrip
  have e1 : p1 ++ (('{' :: mid) ++ ['}']) ++ p2 =
      p1 ++ '{' :: (mid ++ '}' :: p2) := by simp
  rw [e1, dropWhile_append_cons _ _ _ _ hob]
  have e2 : p1.dropWhile isPyWS ++ '{' :: (mid ++ '}' :: p2) =
      ((p1.dropWhile isPyWS ++ '{' :: mid) ++ ['}']) ++ p2 := by simp
  rw [e2, List.reverse_append, List.reverse_append]
  simp only [List.reverse_cons, List.reverse_nil, List.nil_append,
    List.cons_append]
  rw [dropWhile_append_cons _ _ _ _ hcb]
  simp [List.reverse_append]

lemma pyFindIdx_append_first (c : Char) (A rest : List Char) (hA : c ∉ A) :
    pyFindIdx c (A ++ c :: rest) = some A.length := by
  induction A with
  | nil => simp [pyFindIdx]
  | cons a A ih =>
    have ha : ¬ (a = c) := by
      intro h; exact hA (h ▸ List.mem_cons_self a A)
    have ih2 := ih (fun h => hA (List.mem_cons_of_mem a h))
    simp [pyFindIdx, ha, ih2]

lemma extractBraces_wrap (A mid B : List Char) (hA : '{' ∉ A) (hB : '}' ∉ B) :
    extractBraces (A ++ (('{' :: mid) ++ ['}']) ++ B) = ('{' :: mid) ++ ['}'] := by
  have e1 : A ++ (('{' :: mid) ++ ['}']) ++ B =
      A ++ '{' :: (mid ++ '}' :: B) := by simp
  have hfind : pyFindIdx '{' (A ++ (('{' :: mid) ++ ['}']) ++ B) =
      some A.length := by
    rw [e1]; exact pyFindIdx_append_first '{' A _ hA
  have hrev : (A ++ (('{' :: mid) ++ ['}']) ++ B).reverse =
      B.reverse ++ '}' :: ((A ++ '{' :: mid).reverse) := by
    have e2 : A ++ (('{' :: mid) ++ ['}']) ++ B =
        ((A ++ '{' :: mid) ++ ['}']) ++ B := by simp
    rw [e2, List.reverse_append, List.reverse_append]
    simp
  have hBrev : '}' ∉ B.reverse := by simpa using hB
  have hrfind : pyRFindIdx '}' (A ++ (('{' :: mid) ++ ['}']) ++ B) =
      some (A.length + mid.length + 1) := by
    unfold pyRFindIdx
    rw [hrev, pyFindIdx_append_first '}' B.reverse _ hBrev]
    have hlen : (A ++ (('{' :: mid) ++ ['}']) ++ B).length =
        A.length + mid.length + 2 + B.length := by simp; omega
    simp only [hlen, List.length_reverse]
    congr 1
    omega
  have hcond : A.length < A.length + mid.length + 1 + 1 := by omega
  have hgoal : extractBraces (A ++ (('{' :: mid) ++ ['}']) ++ B) =
      List.take (A.length + mid.length + 1 + 1 - A.length)
        (List.drop A.length (A ++ (('{' :: mid) ++ ['}']) ++ B)) := by
    simp only [extractBraces, hfind, hrfind]
    rw [if_pos hcond]
  rw [hgoal]
  have e3 : A ++ (('{' :: mid) ++ ['}']) ++ B =
      A ++ ((('{' :: mid) ++ ['}']) ++ B) := by simp
  rw [e3, List.drop_left]
  have hlen2 : (('{' :: mid) ++ ['}']).length =
      A.length + mid.length + 1 + 1 - A.length := by
    simp; omega
  rw [← hlen2, List.take_left]

lemma stripFences_no_fence (l : List Char) (h : l.take 3 ≠ "```".toList) :
    stripFences l = l := by
  unfold stripFences
  rw [if_neg h]

lemma take3_ne_fence (A1 : List Char) (rest : List Char)
    (h3 : Char.ofNat 96 ∉ A1) :
    (A1 ++ '{' :: rest).take 3 ≠ "```".toList := by
  have hfence : "```".toList =
      Char.ofNat 96 :: Char.ofNat 96 :: Char.ofNat 96 :: [] := by decide
  cases A1 with
  | nil =>
    intro h
    rw [hfence] at h
    have h2 : '{' :: (rest.take 2) =
        Char.ofNat 96 :: Char.ofNat 96 :: Char.ofNat 96 :: [] := h
    have : '{' = Char.ofNat 96 := (List.cons.injEq _ _ _ _).mp h2 |>.1
    exact absurd this (by decide)
  | cons a A1 =>
    intro h
    rw [hfence] at h
    have h2 : a :: ((A1 ++ '{' :: rest).take 2) =
        Char.ofNat 96 :: Char.ofNat 96 :: Char.ofNat 96 :: [] := h
    have : a = Char.ofNat 96 := (List.cons.injEq _ _ _ _).mp h2 |>.1
    exact h3 (this ▸ List.mem_cons_self a A1)

lemma cleanText_unfenced (mid p1 p2 : List Char)
    (h1 : '{' ∉ p1) (h2 : '}' ∉ p2) (h3 : Char.ofNat 96 ∉ p1) :
    cleanText (p1 ++ (('{' :: mid) ++ ['}']) ++ p2) = ('{' :: mid) ++ ['}'] := by
  have hA1sub : ∀ c, c ∈ p1.dropWhile isPyWS → c ∈ p1 :=
    fun c hc => (List.dropWhile_sublist isPyWS).subset hc
  have hB1sub : ∀ c, c ∈ (p2.reverse.dropWhile isPyWS).reverse → c ∈ p2 := by
    intro c hc
    rw [List.mem_reverse] at hc
    have := (List.dropWhile_sublist isPyWS).subset hc
    rwa [List.mem_reverse] at this
  have hA1 : '{' ∉ p1.dropWhile isPyWS := fun h => h1 (hA1sub _ h)
  have hA1bq : Char.ofNat 96 ∉ p1.dropWhile isPyWS := fun h => h3 (hA1sub _ h)
  have hB1 : '}' ∉ (p2.reverse.dropWhile isPyWS).reverse :=
    fun h => h2 (hB1sub _ h)
  unfold cleanText
  rw [pyStrip_wrap]
  have e1 : (p1.dropWhile isPyWS ++ (('{' :: mid) ++ ['}'])) ++
      (p2.reverse.dropWhile isPyWS).reverse =
      p1.dropWhile isPyWS ++
        '{' :: (mid ++ '}' :: (p2.reverse.dropWhile isPyWS).reverse) := by
    simp
  rw [e1, stripFences_no_fence _ (take3_ne_fence _ _ hA1bq), ← e1]
  have e2 : (p1.dropWhile isPyWS ++ (('{' :: mid) ++ ['}'])) ++
      (p2.reverse.dropWhile isPyWS).reverse =
      p1.dropWhile isPyWS ++ (('{' :: mid) ++ ['}']) ++
        (p2.reverse.dropWhile isPyWS).reverse := by
    simp
  rw [e2, extractBraces_wrap _ _ _ hA1 hB1]

lemma splitNl_ne_nil : ∀ l : List Char, splitNl l ≠ []
  | [] => by simp [splitNl]
  | c :: rest => by
    cases h : splitNl rest with
    | nil => exact absurd h (splitNl_ne_nil rest)
    | cons m ms =>
      by_cases hc : c = '\n' <;> simp [splitNl, h, hc]

lemma splitNl_append_nl : ∀ X Y : List Char,
    splitNl (X ++ '\n' :: Y) = splitNl X ++ splitNl Y
  | [], Y => by
    cases h : splitNl Y with
    | nil => exact absurd h (splitNl_ne_nil Y)
    | cons m ms => simp [splitNl, h]
  | c :: X, Y => by
    have ihx := splitNl_append_nl X Y
    cases hx : splitNl X with
    | nil => exact absurd hx (splitNl_ne_nil X)
    | cons m ms =>
      rw [hx] at ihx
      by_cases hc : c = '\n' <;>
        simp [splitNl, ihx, hx, hc]

lemma splitNl_no_nl : ∀ l : List Char, '\n' ∉ l → splitNl l = [l]
  | [], _ => rfl
  | c :: rest, h => by
    have hc : ¬ (c = '\n') := fun hh => h (hh ▸ List.mem_cons_self c rest)
    have ih := splitNl_no_nl rest (fun hh => h (List.mem_cons_of_mem c hh))
    simp [splitNl, ih, hc]

lemma joinNl_splitNl : ∀ l : List Char, joinNl (splitNl l) = l
  | [] => rfl
  | c :: rest => by
    have ih := joinNl_splitNl rest
    cases hx : splitNl rest with
    | nil => exact absurd hx (splitNl_ne_nil rest)
    | cons m ms =>
      rw [hx] at ih
      by_cases hc : c = '\n'
      · subst hc
        simp only [splitNl, hx]
        cases ms with
        | nil => simp [joinNl] at ih ⊢; exact ih
        | cons mm ms' => simp [joinNl] at ih ⊢; exact ih
      · simp only [splitNl, hx, if_neg hc]
        cases ms with
        | nil =>
          simp [joinNl] at ih ⊢
          exact ih
        | cons mm ms' =>
          simp [joinNl] at ih ⊢
          rw [← ih]

lemma pyStrip_id (c d : Char) (T : List Char) (hc : isPyWS c = false)
    (hd : isPyWS d = false) :
    pyStrip (c :: (T ++ [d])) = c :: (T ++ [d]) := by
  unfold pyStrip
  have h1 : List.dropWhile isPyWS (c :: (T ++ [d])) = c :: (T ++ [d]) := by
    simp [List.dropWhile_cons, hc]
  rw [h1]
  have h2 : (c :: (T ++ [d])).reverse = d :: (T.reverse ++ [c]) := by simp
  rw [h2]
  have h3 : List.dropWhile isPyWS (d :: (T.reverse ++ [c])) =
      d :: (T.reverse ++ [c]) := by
    simp [List.dropWhile_cons, hd]
  rw [h3, ← h2, List.reverse_reverse]

lemma cleanText_fenced (mid p1 p2 info : List Char)
    (h1 : '{' ∉ p1) (h2 : '}' ∉ p2) (h4 : '\n' ∉ info) :
    cleanText (("```".toList ++ info) ++
        '\n' :: ((p1 ++ (('{' :: mid) ++ ['}']) ++ p2) ++
          '\n' :: "```".toList)) = ('{' :: mid) ++ ['}'] := by
  have hfence3 : "```".toList =
      [Char.ofNat 96, Char.ofNat 96, Char.ofNat 96] := by decide
  have hnlf : '\n' ∉ "```".toList ++ info := by
    intro h
    rcases List.mem_append.mp h with h | h
    · rw [hfence3] at h; simp at h
    · exact h4 h
  have hstrip : pyStrip (("```".toList ++ info) ++
      '\n' :: ((p1 ++ (('{' :: mid) ++ ['}']) ++ p2) ++
        '\n' :: "```".toList)) =
      ("```".toList ++ info) ++
        '\n' :: ((p1 ++ (('{' :: mid) ++ ['}']) ++ p2) ++
          '\n' :: "```".toList) := by
    have e : ("```".toList ++ info) ++
        '\n' :: ((p1 ++ (('{' :: mid) ++ ['}']) ++ p2) ++
          '\n' :: "```".toList) =
        Char.ofNat 96 :: (([Char.ofNat 96, Char.ofNat 96] ++ info ++
          '\n' :: ((p1 ++ (('{' :: mid) ++ ['}']) ++ p2) ++
            '\n' :: [Char.ofNat 96, Char.ofNat 96])) ++ [Char.ofNat 96]) := by
      rw [hfence3]; simp
    rw [e, pyStrip_id _ _ _ (by decide) (by decide), ← e]
  have hsplit : splitNl (("```".toList ++ info) ++
      '\n' :: ((p1 ++ (('{' :: mid) ++ ['}']) ++ p2) ++
        '\n' :: "```".toList)) =
      ("```".toList ++ info) ::
        (splitNl (p1 ++ (('{' :: mid) ++ ['}']) ++ p2) ++ ["```".toList]) := by
    rw [splitNl_append_nl, splitNl_no_nl _ hnlf,
        splitNl_append_nl, splitNl_no_nl "```".toList (by decide)]
    simp
  have htake : ((("```".toList ++ info) ++
      '\n' :: ((p1 ++ (('{' :: mid) ++ ['}']) ++ p2) ++
        '\n' :: "```".toList)).take 3) = "```".toList := by
    rw [hfence3]
    rfl
  unfold cleanText
  rw [hstrip]
  unfold stripFences
  rw [if_pos htake, hsplit]
  simp only [List.drop_succ_cons, List.drop_zero]
  rw [List.getLast?_concat]
  have hppp : pyStrip "```".toList = "```".toList := by decide
  simp only [hppp, eq_self_iff_true, if_true, List.dropLast_concat,
    joinNl_splitNl]
  exact extractBraces_wrap p1 mid p2 h1 h2

/-- C8 counterexample: the round-trip fails for arbitrary prose — with
leading prose `"{ "` (which contains a brace), extraction takes the
brace from the prose as the start of the object, hands `json.loads` the
unparsable `"{ {\"a\":1}"`, and fails, while parsing the serialized
object directly succeeds. -/
theorem parse_json_strict_prose_with_brace :
    jsonParse (renderJson (Json.obj [(['a'], Json.num 1)])) =
      some (Json.obj [(['a'], Json.num 1)]) ∧
    parse_json_strict
        ('{' :: ' ' :: renderJson (Json.obj [(['a'], Json.num 1)])) = none ∧
    parse_json_strict
        ('{' :: ' ' :: renderJson (Json.obj [(['a'], Json.num 1)])) ≠
      jsonParse (renderJson (Json.obj [(['a'], Json.num 1)])) := by
  refine ⟨rfl, rfl, ?_⟩
  intro h
  have h1 : parse_json_strict
      ('{' :: ' ' :: renderJson (Json.obj [(['a'], Json.num 1)])) = none := rfl
  have h2 : jsonParse (renderJson (Json.obj [(['a'], Json.num 1)])) =
      some (Json.obj [(['a'], Json.num 1)]) := rfl
  rw [h1, h2] at h
  exact Option.noConfusion h

/-- C8 (amended): for every JSON object of the modelled grammar
serialized by `renderJson`, embedded in leading prose containing no `{`
and no backtick and trailing prose containing no `}`, optionally
wrapped in a fenced code block (fence-line suffix without newlines),
`parse_json_strict` yields exactly what parsing the serialization
directly yields. -/
theorem parse_json_strict_roundtrip (ms : List (List Char × Json))
    (p1 p2 info : List Char)
    (h1 : '{' ∉ p1) (h2 : '}' ∉ p2) (h3 : Char.ofNat 96 ∉ p1)
    (h4 : '\n' ∉ info) :
    parse_json_strict (p1 ++ renderJson (Json.obj ms) ++ p2) =
      jsonParse (renderJson (Json.obj ms)) ∧
    parse_json_strict (("```".toList ++ info) ++
        '\n' :: ((p1 ++ renderJson (Json.obj ms) ++ p2) ++
          '\n' :: "```".toList)) =
      jsonParse (renderJson (Json.obj ms)) := by
  have hr : renderJson (Json.obj ms) = ('{' :: renderMembers ms) ++ ['}'] :=
    rfl
  constructor
  · unfold parse_json_strict
    rw [hr]
    exact congrArg jsonParse
      (cleanText_unfenced (renderMembers ms) p1 p2 h1 h2 h3)
  · unfold parse_json_strict
    rw [hr]
    exact congrArg jsonParse
      (cleanText_fenced (renderMembers ms) p1 p2 info h1 h2 h4)

/-- Witness for `parse_json_strict_roundtrip`: the object `a ↦ 1` with
chatty prose on both sides and a `json` fence-info string. -/
theorem parse_json_strict_roundtrip_witness :
    ('{' ∉ " Sure! Here it is: ".toList ∧
     '}' ∉ " Hope that helps.".toList ∧
     Char.ofNat 96 ∉ " Sure! Here it is: ".toList ∧
     '\n' ∉ "json".toList) ∧
    (parse_json_strict (" Sure! Here it is: ".toList ++
        renderJson (Json.obj [(['a'], Json.num 1)]) ++
        " Hope that helps.".toList) =
      jsonParse (renderJson (Json.obj [(['a'], Json.num 1)])) ∧
     parse_json_strict (("```".toList ++ "json".toList) ++
        '\n' :: ((" Sure! Here it is: ".toList ++
          renderJson (Json.obj [(['a'], Json.num 1)]) ++
          " Hope that helps.".toList) ++
          '\n' :: "```".toList)) =
      jsonParse (renderJson (Json.obj [(['a'], Json.num 1)]))) :=
  ⟨⟨by decide, by decide, by decide, by decide⟩,
   parse_json_strict_roundtrip [(['a'], Json.num 1)]
     " Sure! Here it is: ".toList " Hope that helps.".toList "json".toList
     (by decide) (by decide) (by decide) (by decide)⟩
